import Mathlib

/-!
# Verification of the Helix `$function` type-erased callable box

Shallow embedding of `src/core/include/lang/function.hh`.

The C++ class `$function<Rt(Tp...)>` owns at most one heap-allocated
`Callable<T>` (an adapter implementing the abstract `$callable` interface
with `invoke` and `clone`).  We model:

* the heap of adapter objects explicitly (`Heap`): a fresh-address
  allocator, a cell map, and a log of the addresses passed to `delete`
  (so "released exactly once" is statable);
* a box as its `callable` member: a nullable pointer, `Option Nat`;
* a wrapped callable (`Clos`) as a value with a hidden mutable state type,
  a current state, and a step function that may raise a failure of type
  `ε` — this covers function pointers, stateless lambdas and stateful
  functors uniformly, exactly what the adapter type-erases;
* C++ `operator new` failure as an explicit `allocOk : Bool` parameter on
  every operation that allocates: `allocOk = false` is the run in which
  the allocation throws.

Undefined behaviour (dereferencing a dangling adapter pointer) is kept
distinct from every defined outcome (`InvokeRes.ub`, `AssignRes.ub`,
`Option.none` for constructors), never conflated with the empty-box path.
-/

namespace Helix

/-- The heap of dynamically allocated adapter objects.  `next` is the next
fresh address, `cells` maps an address to the live object stored there (or
`none` after `delete`), and `freeLog` records every address passed to
`delete`, newest first, so that "released exactly once" can be counted. -/
structure Heap (κ : Type u) : Type u where
  next : Nat
  cells : Nat → Option κ
  freeLog : List Nat

/-- Models `new`: place `v` at a fresh address and return that address. -/
def alloc (h : Heap κ) (v : κ) : Nat × Heap κ :=
  (h.next, ⟨h.next + 1, fun a => if a = h.next then some v else h.cells a, h.freeLog⟩)

/-- Models `delete` at address `a`: the cell dies and the release is logged. -/
def free (h : Heap κ) (a : Nat) : Heap κ :=
  ⟨h.next, fun b => if b = a then none else h.cells b, a :: h.freeLog⟩

/-- In-place mutation of the object stored at a live address (a functor
mutating its own members during `invoke`). -/
def writeCell (h : Heap κ) (a : Nat) (v : κ) : Heap κ :=
  ⟨h.next, fun b => if b = a then some v else h.cells b, h.freeLog⟩

/-- The `callable` member of `$function`: a nullable owning pointer to a
heap-resident adapter. -/
abbrev Box := Option Nat

/-- Source `operator bool` / `operator$question`: `callable != nullptr`. -/
def toBool (b : Box) : Bool := b.isSome

/-- A heap is well formed when every address at or above the allocation
cursor is dead: `alloc` really returns a fresh address. -/
def WF (h : Heap κ) : Prop := ∀ a, h.next ≤ a → h.cells a = none

/-- The `$function` invariant: the box is empty, or its pointer refers to a
live adapter cell (spec §3: "either empty or holds a valid, invocable
object"). -/
def Valid (h : Heap κ) (b : Box) : Prop :=
  match b with
  | none => True
  | some a => (h.cells a).isSome = true

/-- A wrapped callable of signature `α → β` that may raise a failure of
type `ε`: a hidden state type `St`, the current state, and the call
behaviour.  A `Callable<T>` adapter stores exactly such a value; copying
the adapter copies the state with it. -/
structure Clos (α β ε : Type) : Type 1 where
  St : Type
  state : St
  call : St → α → Except ε (β × St)

/-- The adapter built by the function-pointer constructor
(`new Callable<Rt (*)(Tp...)>(func)`): stateless, `invoke` just calls the
pointer. -/
def fptrClos (f : α → Except ε β) : Clos α β ε :=
  ⟨Unit, (), fun _ x => (f x).map (fun r => (r, ()))⟩

/-- The observable outcome of calling the wrapped value directly,
`c(args...)`: its result, or the failure it raises. -/
def directCall (c : Clos α β ε) (x : α) : Except ε β :=
  (c.call c.state x).map Prod.fst

/-- Source `Callable<T>::clone`: `new Callable(callable)` — copy-construct the
stored value into a fresh cell.  `none` when the source cell is dangling
(undefined behaviour) or when the allocation fails. -/
def clone (h : Heap κ) (a : Nat) (allocOk : Bool) : Option (Nat × Heap κ) :=
  match h.cells a with
  | none => none
  | some c => if allocOk then some (alloc h c) else none

/-- Source `$function()` — default construction: `callable(nullptr)`. -/
def mkEmpty : Box := none

/-- Source `$function($function &&other)`: steal the pointer, null the source.
Result: (the new box, the source after the move). -/
def moveCtor (b : Box) : Box × Box := (b, none)

/-- Source `$function(const $function &other)`:
`callable(other.callable ? other.callable->clone() : nullptr)`.
`none` when cloning fails (no box is constructed). -/
def copyCtor (h : Heap κ) (b : Box) (allocOk : Bool) : Option (Box × Heap κ) :=
  match b with
  | none => some (none, h)
  | some a =>
    match clone h a allocOk with
    | none => none
    | some (a2, h2) => some (some a2, h2)

/-- Source `$function(T $call_o)`: `callable = new Callable<decay_t<T>>(...)`.
`none` when the allocation fails (the constructor throws). -/
def mkFromCallable (h : Heap κ) (c : κ) (allocOk : Bool) : Option (Box × Heap κ) :=
  if allocOk then some (some (alloc h c).1, (alloc h c).2) else none

/-- Source `$function(Rt (*func)(Tp...))`:
`callable(func ? new Callable<...>(func) : nullptr)`.  The pointer is
modelled as `Option (α → Except ε β)`, `none` being the null pointer. -/
def mkFromFptr (h : Heap (Clos α β ε)) (p : Option (α → Except ε β)) (allocOk : Bool) :
    Option (Box × Heap (Clos α β ε)) :=
  match p with
  | none => some (none, h)
  | some f =>
    if allocOk then some (some (alloc h (fptrClos f)).1, (alloc h (fptrClos f)).2)
    else none

/-- Source `reset()`: `if (callable) { delete callable; callable = nullptr; }` —
total (`noexcept`). -/
def reset (h : Heap κ) (b : Box) : Heap κ × Box :=
  match b with
  | none => (h, none)
  | some a => (free h a, none)

/-- Source `operator=($function &&other)`:
`if (this != &other) { reset(); callable = other.callable; other.callable = nullptr; }`.
`same` models the address comparison `this == &other`; when it holds, both
arguments denote one box.  Result: (heap, self after, other after). -/
def moveAssign (h : Heap κ) (self other : Box) (same : Bool) : Heap κ × Box × Box :=
  if same then (h, self, other)
  else ((reset h self).1, other, none)

/-- Outcome of a copy assignment: normal completion, an allocation failure
escaping mid-assignment (with the observable state at the throw point), or
undefined behaviour. -/
inductive AssignRes (κ : Type u) : Type u where
  | ok : Heap κ → Box → Box → AssignRes κ
  | allocFail : Heap κ → Box → Box → AssignRes κ
  | ub : AssignRes κ

/-- Source `operator=(const $function &other)`:
`if (this != &other) { reset(); callable = other.callable ? other.callable->clone() : nullptr; }`.
Note the source order: `reset()` runs before `clone()`, so when the clone
throws, `callable` is already null. -/
def copyAssign (h : Heap κ) (self other : Box) (same allocOk : Bool) : AssignRes κ :=
  if same then .ok h self other
  else
    let h1 := (reset h self).1
    match other with
    | none => .ok h1 none other
    | some a =>
      match h1.cells a with
      | none => .ub
      | some c =>
        if allocOk then .ok (alloc h1 c).2 (some (alloc h1 c).1) other
        else .allocFail h1 none other

/-- Source `operator=(T $call_o)`: `delete callable; callable = new Callable<...>(...);`.
The source deletes first and allocates second; when the allocation throws
(`allocOk = false`), the exception escapes with the member still holding
the old — now dangling — pointer.  Result: (heap, box after, completed
normally?). -/
def assignCallable (h : Heap κ) (b : Box) (c : κ) (allocOk : Bool) :
    Heap κ × Box × Bool :=
  let h1 := match b with
    | none => h
    | some a => free h a
  if allocOk then ((alloc h1 c).2, some (alloc h1 c).1, true)
  else (h1, b, false)

/-- Source `operator=(Rt (*func)(Tp...))`:
`delete callable; callable = func ? new Callable<...>(func) : nullptr;`.
Same delete-first order as `operator=(T)`; the null pointer installs
`nullptr` without allocating. -/
def assignFptr (h : Heap (Clos α β ε)) (b : Box) (p : Option (α → Except ε β))
    (allocOk : Bool) : Heap (Clos α β ε) × Box × Bool :=
  let h1 := match b with
    | none => h
    | some a => free h a
  match p with
  | none => (h1, none, true)
  | some f =>
    if allocOk then ((alloc h1 (fptrClos f)).2, some (alloc h1 (fptrClos f)).1, true)
    else (h1, b, false)

/-- Outcome of `operator()`: the empty-box throw
(`throw "called an unset function pointer"`, the EmptyInvocation kind), a
failure raised by the wrapped callable and propagated as-is, a normal
return together with the heap after the call (the functor may have mutated
its own state), or undefined behaviour (dangling pointer). -/
inductive InvokeRes (α β ε : Type) : Type 1 where
  | empty : InvokeRes α β ε
  | user : ε → InvokeRes α β ε
  | ok : β → Heap (Clos α β ε) → InvokeRes α β ε
  | ub : InvokeRes α β ε

/-- The caller-observable part of an invocation outcome (heap dropped). -/
inductive Obs (β ε : Type) : Type where
  | empty : Obs β ε
  | user : ε → Obs β ε
  | ok : β → Obs β ε
  | ub : Obs β ε

/-- Forget the heap component of an invocation outcome. -/
def InvokeRes.obs : InvokeRes α β ε → Obs β ε
  | .empty => .empty
  | .user e => .user e
  | .ok r _ => .ok r
  | .ub => .ub

/-- The heap after an invocation (`fallback` when the call did not return
normally: the model commits the functor's state only on normal return). -/
def InvokeRes.heapAfter : InvokeRes α β ε → Heap (Clos α β ε) → Heap (Clos α β ε)
  | .ok _ h2, _ => h2
  | _, h => h

/-- Source `operator()(Tp... args)`:
`if (!callable) { throw "called an unset function pointer"; } return callable->invoke(args...);`.
The null check runs before any forwarding; `Callable<T>::invoke` runs the
stored value, whose raised failure propagates untouched (no catch). -/
def boxInvoke (h : Heap (Clos α β ε)) (b : Box) (x : α) : InvokeRes α β ε :=
  match b with
  | none => .empty
  | some a =>
    match h.cells a with
    | none => .ub
    | some c =>
      match c.call c.state x with
      | .error e => .user e
      | .ok (r, s2) => .ok r (writeCell h a ⟨c.St, s2, c.call⟩)

/-! ### Concrete instances used by witnesses -/

/-- The empty heap. -/
def hEmpty : Heap (Clos Nat Nat Nat) := ⟨0, fun _ => none, []⟩

/-- A stateful functor: adds its argument to a running counter and returns
the sum; never raises. -/
def cCounter : Clos Nat Nat Nat :=
  ⟨Nat, 0, fun s x => .ok (s + x, s + x)⟩

/-- A callable that always raises failure `7`. -/
def cRaise : Clos Nat Nat Nat :=
  ⟨Unit, (), fun _ _ => .error 7⟩

/-- A concrete function pointer: `fun x => x + 1`, never raises. -/
def fAddOne : Nat → Except Nat Nat := fun x => .ok (x + 1)

/-! ### Claim theorems -/

/-- C1: for every callable `c` compatible with the signature and every
argument, constructing a box from `c` and invoking it produces the same
observable outcome — same return value, same raised failure — as calling
`c` directly: `Box(c)(args...)` equals `c(args...)`. -/
theorem box_of_callable_invokes_like_callable
    (h : Heap (Clos α β ε)) (c : Clos α β ε) (x : α) (b : Box)
    (h2 : Heap (Clos α β ε)) (hmk : mkFromCallable h c true = some (b, h2)) :
    (boxInvoke h2 b x).obs =
      (match directCall c x with
       | .ok r => Obs.ok r
       | .error e => Obs.user e) := by
  simp only [mkFromCallable, if_true, Option.some.injEq, Prod.mk.injEq] at hmk
  obtain ⟨hb, hh⟩ := hmk
  subst hb hh
  simp only [boxInvoke, alloc, directCall]
  rcases hcall : c.call c.state x with e | ⟨r, s2⟩ <;>
    simp [hcall, InvokeRes.obs, Except.map]

/-- C1 witness: the counter functor wrapped in a box and invoked at `5`
returns what the functor itself returns. -/
theorem box_of_callable_invokes_like_callable_witness :
    (boxInvoke (alloc hEmpty cCounter).2 (some 0) 5).obs =
      (match directCall cCounter 5 with
       | .ok r => Obs.ok r
       | .error e => Obs.user e) :=
  box_of_callable_invokes_like_callable hEmpty cCounter 5 (some 0)
    (alloc hEmpty cCounter).2 rfl

/-- C2: invoking a box yields the EmptyInvocation failure exactly when the
box is empty (the null check runs before any forwarding); on a non-empty
box the call forwards to the stored adapter and whatever failure the
wrapped callable raises comes back with its payload untouched — never
inspected, wrapped further, or suppressed — while a normal return comes
back as a normal return. -/
theorem invoke_empty_iff_empty_and_propagates
    (h : Heap (Clos α β ε)) (b : Box) (x : α) :
    (boxInvoke h b x = .empty ↔ b = none) ∧
    (∀ a c, b = some a → h.cells a = some c →
      ((∀ e, c.call c.state x = .error e → boxInvoke h b x = .user e) ∧
       (∀ r s2, c.call c.state x = .ok (r, s2) →
         boxInvoke h b x = .ok r (writeCell h a ⟨c.St, s2, c.call⟩)))) := by
  constructor
  · cases b with
    | none => simp [boxInvoke]
    | some a =>
      simp only [boxInvoke]
      rcases hc : h.cells a with _ | c
      · simp
      · rcases hcall : c.call c.state x with e | ⟨r, s2⟩ <;> simp [hcall]
  · intro a c hb hc
    subst hb
    constructor
    · intro e hcall; simp [boxInvoke, hc, hcall]
    · intro r s2 hcall; simp [boxInvoke, hc, hcall]

/-- C2 witness: at a concrete heap holding the always-raising callable at
address 0, the empty box raises EmptyInvocation and the full box passes
failure `7` through unmodified. -/
theorem invoke_empty_iff_empty_and_propagates_witness :
    (boxInvoke (alloc hEmpty cRaise).2 (some 0) 5 = .empty ↔ (some 0 : Box) = none) ∧
    (∀ a c, (some 0 : Box) = some a → (alloc hEmpty cRaise).2.cells a = some c →
      ((∀ e, c.call c.state 5 = .error e →
         boxInvoke (alloc hEmpty cRaise).2 (some 0) 5 = .user e) ∧
       (∀ r s2, c.call c.state 5 = .ok (r, s2) →
         boxInvoke (alloc hEmpty cRaise).2 (some 0) 5 =
           .ok r (writeCell (alloc hEmpty cRaise).2 a ⟨c.St, s2, c.call⟩)))) :=
  invoke_empty_iff_empty_and_propagates (alloc hEmpty cRaise).2 (some 0) 5

/-- C6: self-assignment, by move or by copy, short-circuits on the
`this != &other` guard: the heap (in particular the release log) and the
box are returned untouched — no content is released, no state changes. -/
theorem self_assign_is_noop (h : Heap κ) (b : Box) (allocOk : Bool) :
    moveAssign h b b true = (h, b, b) ∧ copyAssign h b b true allocOk = .ok h b b := by
  constructor <;> simp [moveAssign, copyAssign]

/-- C3 evidence: `operator=(T)` and `operator=(Rt (*)(Tp...))` run
`delete callable` before `new Callable(...)`.  At a box holding the live
counter adapter at address 0, when the allocation of the replacement
fails, the prior content has already been destroyed (the cell is dead and
its release is logged) even though no replacement was constructed — the
box is left holding a dangling pointer, not its prior content.  This
refutes the claimed construct-then-swap ordering. -/
theorem assign_destroys_old_content_before_construction :
    ((alloc hEmpty cCounter).2.cells 0 = some cCounter) ∧
    ((assignCallable (alloc hEmpty cCounter).2 (some 0) cRaise false).1.cells 0 = none) ∧
    ((assignCallable (alloc hEmpty cCounter).2 (some 0) cRaise false).1.freeLog = [0]) ∧
    ((assignCallable (alloc hEmpty cCounter).2 (some 0) cRaise false).2.1 = some 0) ∧
    ((assignCallable (alloc hEmpty cCounter).2 (some 0) cRaise false).2.2 = false) ∧
    ((assignFptr (alloc hEmpty cCounter).2 (some 0) (some fAddOne) false).1.cells 0 = none) ∧
    ((assignFptr (alloc hEmpty cCounter).2 (some 0) (some fAddOne) false).2.1 = some 0) ∧
    ((assignFptr (alloc hEmpty cCounter).2 (some 0) (some fAddOne) false).2.2 = false) :=
  ⟨rfl, rfl, rfl, rfl, rfl, rfl, rfl, rfl⟩

/-- C7: `reset()` is total (`noexcept`), leaves the box empty — its boolean
conversion is false and a subsequent invocation raises EmptyInvocation —
and, when the box owned content at address `a`, that cell is released
exactly once (its release count grows by one, the cell dies) while every
other cell and release count is untouched; an empty box's reset changes
nothing. -/
theorem reset_empties_and_releases_once
    (h : Heap (Clos α β ε)) (b : Box) (x : α) :
    (reset h b).2 = none ∧
    toBool (reset h b).2 = false ∧
    boxInvoke (reset h b).1 (reset h b).2 x = .empty ∧
    (b = none → (reset h b).1 = h) ∧
    (∀ a, b = some a →
      (reset h b).1.cells a = none ∧
      (∀ a2, a2 ≠ a → (reset h b).1.cells a2 = h.cells a2) ∧
      (reset h b).1.freeLog.count a = h.freeLog.count a + 1 ∧
      (∀ a2, a2 ≠ a → (reset h b).1.freeLog.count a2 = h.freeLog.count a2)) := by
  rcases b with _ | a
  · simp [reset, toBool, boxInvoke]
  · refine ⟨rfl, rfl, rfl, fun hcontr => Option.noConfusion hcontr, ?_⟩
    rintro a2 h2
    obtain rfl := Option.some.inj h2
    refine ⟨by simp [reset, free], ?_, by simp [reset, free, List.count_cons], ?_⟩
    · intro a3 hne; simp [reset, free, hne]
    · intro a3 hne; simp [reset, free, List.count_cons, hne]

/-- C7 witness: resetting the box holding the counter adapter at address 0. -/
theorem reset_empties_and_releases_once_witness :
    (reset (alloc hEmpty cCounter).2 (some 0)).2 = none ∧
    toBool (reset (alloc hEmpty cCounter).2 (some 0)).2 = false ∧
    boxInvoke (reset (alloc hEmpty cCounter).2 (some 0)).1
      (reset (alloc hEmpty cCounter).2 (some 0)).2 5 = .empty ∧
    ((some 0 : Box) = none → (reset (alloc hEmpty cCounter).2 (some 0)).1 =
      (alloc hEmpty cCounter).2) ∧
    (∀ a, (some 0 : Box) = some a →
      (reset (alloc hEmpty cCounter).2 (some 0)).1.cells a = none ∧
      (∀ a2, a2 ≠ a → (reset (alloc hEmpty cCounter).2 (some 0)).1.cells a2 =
        (alloc hEmpty cCounter).2.cells a2) ∧
      (reset (alloc hEmpty cCounter).2 (some 0)).1.freeLog.count a =
        (alloc hEmpty cCounter).2.freeLog.count a + 1 ∧
      (∀ a2, a2 ≠ a → (reset (alloc hEmpty cCounter).2 (some 0)).1.freeLog.count a2 =
        (alloc hEmpty cCounter).2.freeLog.count a2)) :=
  reset_empties_and_releases_once (alloc hEmpty cCounter).2 (some 0) 5

/-- C8: constructing a box from a function pointer `p` yields a box owning
a fresh adapter wrapping `p` when `p` is non-null, and an empty box
(boolean conversion false, no allocation, never fails) when `p` is null;
the construction fails exactly when `p` is non-null and the allocation
fails. -/
theorem fptr_ctor_wraps_or_empty
    (h : Heap (Clos α β ε)) (p : Option (α → Except ε β)) (allocOk : Bool) :
    (p = none → mkFromFptr h p allocOk = some (none, h) ∧ toBool (none : Box) = false) ∧
    (∀ f, p = some f → allocOk = true →
      mkFromFptr h p allocOk = some (some h.next, (alloc h (fptrClos f)).2) ∧
      (alloc h (fptrClos f)).2.cells h.next = some (fptrClos f) ∧
      toBool (some h.next) = true) ∧
    (mkFromFptr h p allocOk = none ↔ allocOk = false ∧ p ≠ none) := by
  rcases p with _ | f <;> rcases allocOk <;>
    simp [mkFromFptr, alloc, toBool]

/-- C8 witness: constructing from the non-null pointer `fAddOne` with a
successful allocation, and from the null pointer. -/
theorem fptr_ctor_wraps_or_empty_witness :
    ((some fAddOne : Option (Nat → Except Nat Nat)) = none →
      mkFromFptr hEmpty (some fAddOne) true = some (none, hEmpty) ∧
      toBool (none : Box) = false) ∧
    (∀ f, (some fAddOne : Option (Nat → Except Nat Nat)) = some f → true = true →
      mkFromFptr hEmpty (some fAddOne) true =
        some (some hEmpty.next, (alloc hEmpty (fptrClos f)).2) ∧
      (alloc hEmpty (fptrClos f)).2.cells hEmpty.next = some (fptrClos f) ∧
      toBool (some hEmpty.next) = true) ∧
    (mkFromFptr hEmpty (some fAddOne) true = none ↔
      true = false ∧ (some fAddOne : Option (Nat → Except Nat Nat)) ≠ none) :=
  fptr_ctor_wraps_or_empty hEmpty (some fAddOne) true

/-- C9: assigning a null function pointer releases the box's prior content
(the old cell dies and its release is logged) and installs the null
pointer, leaving the box empty — boolean conversion false — and the
assignment completes normally, mirroring null-pointer construction. -/
theorem assign_null_fptr_empties
    (h : Heap (Clos α β ε)) (b : Box) (allocOk : Bool) :
    (assignFptr h b none allocOk).2.1 = none ∧
    toBool (assignFptr h b none allocOk).2.1 = false ∧
    (assignFptr h b none allocOk).2.2 = true ∧
    (b = none → (assignFptr h b none allocOk).1 = h) ∧
    (∀ a, b = some a →
      (assignFptr h b none allocOk).1.cells a = none ∧
      (assignFptr h b none allocOk).1.freeLog.count a = h.freeLog.count a + 1) := by
  rcases b with _ | a <;>
    simp [assignFptr, toBool, free, List.count_cons]

/-- C9 witness: assigning the null pointer to the box holding the counter
adapter at address 0. -/
theorem assign_null_fptr_empties_witness :
    (assignFptr (alloc hEmpty cCounter).2 (some 0) none true).2.1 = none ∧
    toBool (assignFptr (alloc hEmpty cCounter).2 (some 0) none true).2.1 = false ∧
    (assignFptr (alloc hEmpty cCounter).2 (some 0) none true).2.2 = true ∧
    ((some 0 : Box) = none →
      (assignFptr (alloc hEmpty cCounter).2 (some 0) none true).1 =
        (alloc hEmpty cCounter).2) ∧
    (∀ a, (some 0 : Box) = some a →
      (assignFptr (alloc hEmpty cCounter).2 (some 0) none true).1.cells a = none ∧
      (assignFptr (alloc hEmpty cCounter).2 (some 0) none true).1.freeLog.count a =
        (alloc hEmpty cCounter).2.freeLog.count a + 1) :=
  assign_null_fptr_empties (alloc hEmpty cCounter).2 (some 0) true

/-- Helper: the observable outcome of invoking a box depends only on the
cell its pointer refers to. -/
theorem boxInvoke_obs_congr (h1 h2 : Heap (Clos α β ε)) (a : Nat) (y : α)
    (hc : h1.cells a = h2.cells a) :
    (boxInvoke h1 (some a) y).obs = (boxInvoke h2 (some a) y).obs := by
  simp only [boxInvoke, hc]
  rcases h2.cells a with _ | c
  · rfl
  · rcases hcall : c.call c.state y with e | ⟨r, s2⟩ <;>
      simp [hcall, InvokeRes.obs]

/-- C10: invoking a non-empty box never changes the box's own state:
`operator()` reads the `callable` member but never writes it, so the box
still points at the same adapter cell, that cell is still live after the
call — holding the same adapter (same stored call behaviour, possibly with
mutated internal state) — the emptiness test still yields true, and the
empty-box failure is never raised, whether the wrapped callable returns
normally or raises. -/
theorem invoke_preserves_box_state
    (h : Heap (Clos α β ε)) (b : Box) (x : α) (a : Nat) (c : Clos α β ε)
    (hb : b = some a) (hc : h.cells a = some c) :
    toBool b = true ∧
    boxInvoke h b x ≠ .empty ∧
    (∃ s2 : c.St, ((boxInvoke h b x).heapAfter h).cells a = some ⟨c.St, s2, c.call⟩) := by
  subst hb
  refine ⟨rfl, ?_, ?_⟩
  · simp only [boxInvoke, hc]
    rcases c.call c.state x with e | ⟨r, s2⟩ <;> simp
  · simp only [boxInvoke, hc]
    rcases c.call c.state x with e | ⟨r, s2⟩
    · exact ⟨c.state, by simp [InvokeRes.heapAfter, hc]⟩
    · exact ⟨s2, by simp [InvokeRes.heapAfter, writeCell]⟩

/-- C10 witness: invoking the box holding the counter adapter at address 0
(normal return), the hypotheses discharged at the concrete heap. -/
theorem invoke_preserves_box_state_witness :
    toBool (some 0) = true ∧
    boxInvoke (alloc hEmpty cCounter).2 (some 0) 5 ≠ .empty ∧
    (∃ s2 : cCounter.St,
      ((boxInvoke (alloc hEmpty cCounter).2 (some 0) 5).heapAfter
        (alloc hEmpty cCounter).2).cells 0 = some ⟨cCounter.St, s2, cCounter.call⟩) :=
  invoke_preserves_box_state (alloc hEmpty cCounter).2 (some 0) 5 0 cCounter rfl rfl

/-- C4: after a move — construction or assignment onto a distinct box —
the source is empty (boolean conversion false) and the target behaves
exactly as the source did before: it holds the very pointer the source
held (so it is empty iff the source was), and invoking it produces the
observable outcome the source would have produced.  Both operations are
total (`noexcept`, no allocation): move never fails.  `hnoalias` is the
ownership invariant that two distinct boxes never point at the same
adapter cell. -/
theorem move_empties_source_and_preserves_behavior
    (h : Heap (Clos α β ε)) (self other : Box) (x : α)
    (hnoalias : ∀ a, self = some a → other ≠ some a) :
    (toBool (moveCtor other).2 = false ∧
     (moveCtor other).1 = other ∧
     (boxInvoke h (moveCtor other).1 x).obs = (boxInvoke h other x).obs) ∧
    (toBool (moveAssign h self other false).2.2 = false ∧
     (moveAssign h self other false).2.1 = other ∧
     toBool (moveAssign h self other false).2.1 = toBool other ∧
     (boxInvoke (moveAssign h self other false).1
        (moveAssign h self other false).2.1 x).obs = (boxInvoke h other x).obs) := by
  refine ⟨⟨rfl, rfl, rfl⟩, rfl, rfl, rfl, ?_⟩
  rcases self with _ | as
  · rfl
  · rcases other with _ | a
    · rfl
    · have hne : a ≠ as := fun hcontr => hnoalias as rfl (by rw [hcontr])
      have hcells : ((moveAssign h (some as) (some a) false).1).cells a = h.cells a := by
        simp [moveAssign, reset, free, hne]
      exact boxInvoke_obs_congr _ h a x hcells

/-- C4 witness: a heap holding the counter adapter at address 0 and the
raising adapter at address 1; moving the box at 1 onto the box at 0. -/
theorem move_empties_source_and_preserves_behavior_witness :
    (toBool (moveCtor (some 1)).2 = false ∧
     (moveCtor (some 1)).1 = some 1 ∧
     (boxInvoke (alloc (alloc hEmpty cCounter).2 cRaise).2 (moveCtor (some 1)).1 5).obs =
       (boxInvoke (alloc (alloc hEmpty cCounter).2 cRaise).2 (some 1) 5).obs) ∧
    (toBool (moveAssign (alloc (alloc hEmpty cCounter).2 cRaise).2
        (some 0) (some 1) false).2.2 = false ∧
     (moveAssign (alloc (alloc hEmpty cCounter).2 cRaise).2
        (some 0) (some 1) false).2.1 = some 1 ∧
     toBool (moveAssign (alloc (alloc hEmpty cCounter).2 cRaise).2
        (some 0) (some 1) false).2.1 = toBool (some 1) ∧
     (boxInvoke (moveAssign (alloc (alloc hEmpty cCounter).2 cRaise).2
          (some 0) (some 1) false).1
        (moveAssign (alloc (alloc hEmpty cCounter).2 cRaise).2
          (some 0) (some 1) false).2.1 5).obs =
       (boxInvoke (alloc (alloc hEmpty cCounter).2 cRaise).2 (some 1) 5).obs) :=
  move_empties_source_and_preserves_behavior
    (alloc (alloc hEmpty cCounter).2 cRaise).2 (some 0) (some 1) 5
    (fun a ha hb => by
      obtain rfl := Option.some.inj ha
      exact absurd (Option.some.inj hb) (by decide))

/-- C5: a copy of a box is empty iff the original is; a copy of a
non-empty box owns a fresh adapter cell, distinct from the original's, so
the two boxes share no mutable state: invoking the copy leaves the
original's cell untouched — the original's subsequent observable results
are exactly what they were before the copy was invoked — and, conversely,
invoking the original leaves the copy's cell untouched. -/
theorem copy_is_independent_deep_copy
    (h : Heap (Clos α β ε)) (b b2 : Box) (h2 : Heap (Clos α β ε)) (x y : α)
    (hWF : WF h) (hcopy : copyCtor h b true = some (b2, h2)) :
    toBool b2 = toBool b ∧
    (∀ a, b = some a →
      b2 = some h.next ∧ a ≠ h.next ∧
      h2.cells a = h.cells a ∧
      ((boxInvoke h2 b2 x).heapAfter h2).cells a = h.cells a ∧
      (boxInvoke ((boxInvoke h2 b2 x).heapAfter h2) b y).obs =
        (boxInvoke h b y).obs ∧
      (∀ a2, b2 = some a2 →
        ((boxInvoke h2 b x).heapAfter h2).cells a2 = h2.cells a2)) := by
  rcases b with _ | a0
  · simp only [copyCtor, Option.some.injEq, Prod.mk.injEq] at hcopy
    obtain ⟨rfl, rfl⟩ := hcopy
    exact ⟨rfl, by rintro a ⟨⟩⟩
  · simp only [copyCtor, clone] at hcopy
    rcases hc : h.cells a0 with _ | c
    · rw [hc] at hcopy; exact absurd hcopy (by simp)
    · rw [hc] at hcopy
      simp only [if_true, Option.some.injEq, Prod.mk.injEq] at hcopy
      obtain ⟨rfl, rfl⟩ := hcopy
      have hne : a0 ≠ h.next := by
        intro hcontr
        rw [hWF a0 (le_of_eq hcontr.symm)] at hc
        exact Option.noConfusion hc
      have h2a0 : (alloc h c).2.cells a0 = h.cells a0 := by
        simp [alloc, hne]
      have h2next : (alloc h c).2.cells h.next = some c := by
        simp [alloc]
      have hafter :
          ((boxInvoke (alloc h c).2 (some (alloc h c).1) x).heapAfter
            (alloc h c).2).cells a0 = h.cells a0 := by
        simp only [alloc, boxInvoke] at h2next ⊢
        rw [h2next]
        rcases hcall : c.call c.state x with e | ⟨r, s2⟩ <;>
          simp [hcall, InvokeRes.heapAfter, writeCell, hne]
      refine ⟨rfl, ?_⟩
      rintro a ha
      obtain rfl := Option.some.inj ha
      refine ⟨rfl, hne, h2a0, hafter, ?_, ?_⟩
      · exact boxInvoke_obs_congr _ h a0 y hafter
      · rintro a2 ha2
        obtain rfl := Option.some.inj ha2
        simp only [boxInvoke]
        rw [show (alloc h c).2.cells a0 = some c from h2a0.trans hc]
        rcases hcall : c.call c.state x with e | ⟨r, s2⟩
        · simp [hcall, InvokeRes.heapAfter]
        · simp [hcall, InvokeRes.heapAfter, writeCell, alloc, Ne.symm hne]

/-- C5 witness: copying the box holding the counter adapter at address 0;
the copy lands at address 1 and the two adapters are independent. -/
theorem copy_is_independent_deep_copy_witness :
    toBool (some 1) = toBool (some 0) ∧
    (∀ a, (some 0 : Box) = some a →
      (some 1 : Box) = some (alloc hEmpty cCounter).2.next ∧
      a ≠ (alloc hEmpty cCounter).2.next ∧
      (alloc (alloc hEmpty cCounter).2 cCounter).2.cells a =
        (alloc hEmpty cCounter).2.cells a ∧
      ((boxInvoke (alloc (alloc hEmpty cCounter).2 cCounter).2 (some 1) 5).heapAfter
        (alloc (alloc hEmpty cCounter).2 cCounter).2).cells a =
        (alloc hEmpty cCounter).2.cells a ∧
      (boxInvoke
        ((boxInvoke (alloc (alloc hEmpty cCounter).2 cCounter).2 (some 1) 5).heapAfter
          (alloc (alloc hEmpty cCounter).2 cCounter).2) (some 0) 7).obs =
        (boxInvoke (alloc hEmpty cCounter).2 (some 0) 7).obs ∧
      (∀ a2, (some 1 : Box) = some a2 →
        ((boxInvoke (alloc (alloc hEmpty cCounter).2 cCounter).2 (some 0) 5).heapAfter
          (alloc (alloc hEmpty cCounter).2 cCounter).2).cells a2 =
          (alloc (alloc hEmpty cCounter).2 cCounter).2.cells a2)) :=
  copy_is_independent_deep_copy (alloc hEmpty cCounter).2 (some 0) (some 1)
    (alloc (alloc hEmpty cCounter).2 cCounter).2 5 7
    (fun a ha => by
      simp only [alloc, hEmpty]
      have : a ≠ 0 := by
        intro hcontr
        rw [hcontr] at ha
        exact absurd ha (by simp [alloc, hEmpty])
      simp [this])
    rfl

end Helix
